import Mathlib

/-!
Verification of compare_mq_ops.py: a differential-debugging tool that parses
MQ-coder trace lines from an encoder and a decoder stream and reports the
first operation at which their (newState, newMPS) snapshots diverge.

Lines and payloads are modelled as lists of characters.  The two tag
grammars from the source regexes, the snapshot sub-pattern search, the
line parser parse_mq_operations, and the comparison loop of main are each
embedded as executable Lean functions below, translated clause by clause
from the Python source.
-/

namespace CompareMqOps

/-- Phase token of a trace line: the (BEFORE|AFTER) group of the tag regex. -/
inductive Phase where
  | BEFORE : Phase
  | AFTER : Phase
deriving DecidableEq, Repr, Inhabited

/-- One parsed trace line: the Python tuple (op_num, phase, details) built at
lines 20 and 28 of the source. -/
structure TraceLine where
  opNum : Nat
  phase : Phase
  details : List Char
deriving DecidableEq, Repr, Inhabited

/-- Numeric value of a decimal digit character. -/
def digitVal (c : Char) : Nat := c.toNat - '0'.toNat

/-- Value of a digit run, as Python int() computes it on the matched group. -/
def digsToNat (ds : List Char) : Nat := ds.foldl (fun a c => a * 10 + digitVal c) 0

/-- Consume a literal token at the front of the input: the fixed characters of
a regex.  Returns the remainder on success. -/
def eatLit : List Char → List Char → Option (List Char)
  | [], s => some s
  | _ :: _, [] => none
  | p :: ps, c :: cs => if c = p then eatLit ps cs else none

/-- Python str.strip() default whitespace set, restricted to ASCII. -/
def isPySpace (c : Char) : Bool :=
  c = ' ' || c = '\t' || c = '\n' || c = '\r' || c = '\x0b' || c = '\x0c'

/-- Python str.strip(): remove leading and trailing whitespace. -/
def pyStrip (s : List Char) : List Char :=
  ((s.dropWhile isPySpace).reverse.dropWhile isPySpace).reverse

/-- The literal head of the encoder tag regex, the characters of "[MQE #". -/
def encTagStr : List Char := ['[', 'M', 'Q', 'E', ' ', '#']

/-- The literal head of the decoder tag regex, the characters of "[MQC #". -/
def decTagStr : List Char := ['[', 'M', 'Q', 'C', ' ', '#']

/-- The BEFORE and AFTER literal tokens of the phase alternation. -/
def phTok : Phase → List Char
  | Phase.BEFORE => ['B', 'E', 'F', 'O', 'R', 'E']
  | Phase.AFTER => ['A', 'F', 'T', 'E', 'R']

/-- The group (BEFORE|AFTER) of the tag regexes: alternation tried left to
right; the two tokens never both head the same input. -/
def eatPhase (s : List Char) : Option (Phase × List Char) :=
  match eatLit (phTok Phase.BEFORE) s with
  | some r => some (Phase.BEFORE, r)
  | none =>
    match eatLit (phTok Phase.AFTER) s with
    | some r => some (Phase.AFTER, r)
    | none => none

/-- The segment (backslash-d)+ followed by a single space of the tag regexes:
a nonempty maximal digit run, then a space.  Returns int(group(1)) and the
input after the space. -/
def afterTag (r1 : List Char) : Option (Nat × List Char) :=
  if r1.takeWhile Char.isDigit = [] then none
  else
    match r1.dropWhile Char.isDigit with
    | c :: r2 => if c = ' ' then some (digsToNat (r1.takeWhile Char.isDigit), r2) else none
    | [] => none

/-- The phase group followed by the closing bracket of the tag. -/
def afterNum (r2 : List Char) : Option (Phase × List Char) :=
  match eatPhase r2 with
  | some (ph, c :: rest) => if c = ']' then some (ph, rest) else none
  | _ => none

/-- The group (.+) then .strip(): the maximal nonempty run of non-newline
characters after the bracket, with surrounding whitespace removed. -/
def payOf (rest : List Char) : Option (List Char) :=
  if rest.takeWhile (fun c => !(c = '\n')) = [] then none
  else some (pyStrip (rest.takeWhile (fun c => !(c = '\n'))))

/-- re.match of one tag regex against a line, as at source lines 15 and 23:
the tag literal, a nonempty digit run, a space, BEFORE or AFTER, a closing
bracket, then a nonempty rest-of-line whose trimmed form is the payload. -/
def matchTag (tag line : List Char) : Option TraceLine :=
  (eatLit tag line).bind fun r1 =>
  (afterTag r1).bind fun nr2 =>
  (afterNum nr2.2).bind fun phRest =>
  (payOf phRest.2).map fun pay => ⟨nr2.1, phRest.1, pay⟩

/-- The encoder-line match at source line 15. -/
def matchEnc (line : List Char) : Option TraceLine := matchTag encTagStr line

/-- The decoder-line match at source line 23. -/
def matchDec (line : List Char) : Option TraceLine := matchTag decTagStr line

/-- parse_mq_operations: test every line against both tag regexes, appending
each successful match to the side it tags, in input order. -/
def parse_mq_operations : List (List Char) → List TraceLine × List TraceLine
  | [] => ([], [])
  | l :: ls =>
    let rest := parse_mq_operations ls
    ((matchEnc l).toList ++ rest.1, (matchDec l).toList ++ rest.2)

/-- The literal characters of "newState=". -/
def newStateLit : List Char := ['n', 'e', 'w', 'S', 't', 'a', 't', 'e', '=']

/-- The literal characters of " newMPS=". -/
def newMPSLit : List Char := [' ', 'n', 'e', 'w', 'M', 'P', 'S', '=']

/-- Match of the snapshot sub-pattern at the head of the input: the literal
newState=, a nonempty digit run, the literal with-space newMPS=, a second
nonempty digit run.  The two matched digit strings are returned verbatim, as
the Python groups are. -/
def matchSnapAt (s : List Char) : Option (List Char × List Char) :=
  (eatLit newStateLit s).bind fun r1 =>
    if r1.takeWhile Char.isDigit = [] then none
    else
      (eatLit newMPSLit (r1.dropWhile Char.isDigit)).bind fun r2 =>
        if r2.takeWhile Char.isDigit = [] then none
        else some (r1.takeWhile Char.isDigit, r2.takeWhile Char.isDigit)

/-- re.search at source lines 69 and 70: try the snapshot sub-pattern at each
position left to right, returning the leftmost match. -/
def searchSnap : List Char → Option (List Char × List Char)
  | [] => none
  | c :: cs =>
    match matchSnapAt (c :: cs) with
    | some r => some r
    | none => searchSnap cs

/-- Per-operation outcome of the comparison: a match confirmation carrying
the shared snapshot, or a mismatch notice carrying both snapshots. -/
inductive Verdict where
  | matched : (List Char × List Char) → Verdict
  | mismatched : (List Char × List Char) → (List Char × List Char) → Verdict
deriving DecidableEq, Repr

/-- Terminal state of the comparison loop: ran through the whole window, or
stopped at the break on the first mismatch. -/
inductive Terminal where
  | Exhausted : Terminal
  | Diverged : Terminal
deriving DecidableEq, Repr

/-- The body of the comparison at source lines 69 to 81 for operation i: the
two AFTER payloads at positions 2i+1, their snapshot searches, and the tuple
comparison of the matched digit strings when both are present. -/
def opVerdict (enc dec : List TraceLine) (i : Nat) : Option Verdict :=
  match searchSnap (enc.getD (i * 2 + 1) default).details,
        searchSnap (dec.getD (i * 2 + 1) default).details with
  | some e, some d =>
    if e = d then some (Verdict.matched e) else some (Verdict.mismatched e d)
  | _, _ => none

/-- Whether an outcome is the mismatch notice that triggers the break. -/
def isMis : Option Verdict → Bool
  | some (Verdict.mismatched _ _) => true
  | _ => false

/-- The for-loop of main from operation i with k operations left in the
window: collect each operation's outcome, breaking right after the first
mismatch notice. -/
def runFrom (enc dec : List TraceLine) : Nat → Nat → List (Option Verdict) × Terminal
  | _, 0 => ([], Terminal.Exhausted)
  | i, k + 1 =>
    let v := opVerdict enc dec i
    if isMis v then ([v], Terminal.Diverged)
    else
      let r := runFrom enc dec (i + 1) k
      (v :: r.1, r.2)

/-- max_ops at source line 54: min(50, len(enc) div 2, len(dec) div 2). -/
def maxOps (enc dec : List TraceLine) : Nat :=
  min (min 50 (enc.length / 2)) (dec.length / 2)

/-- The whole comparison of main: run the loop over the window. -/
def compareOps (enc dec : List TraceLine) : List (Option Verdict) × Terminal :=
  runFrom enc dec 0 (maxOps enc dec)

/-! ## Helper lemmas -/

theorem eatLit_self_app (t s : List Char) : eatLit t (t ++ s) = some s := by
  induction t with
  | nil => rfl
  | cons c cs ih => simp [eatLit, ih]

theorem takeWhile_run (p : Char → Bool) :
    ∀ (ds : List Char), (∀ c ∈ ds, p c = true) →
      ∀ (x : Char) (s : List Char), p x = false →
        (ds ++ x :: s).takeWhile p = ds ∧ (ds ++ x :: s).dropWhile p = x :: s
  | [], _, x, s, h2 => by
    constructor
    · rw [List.nil_append, List.takeWhile_cons, h2]; simp
    · rw [List.nil_append, List.dropWhile_cons, h2]; simp
  | c :: cs, h1, x, s, h2 => by
    have hc : p c = true := h1 c (by simp)
    have ih := takeWhile_run p cs (fun a ha => h1 a (by simp [ha])) x s h2
    constructor
    · rw [List.cons_append, List.takeWhile_cons, hc, ih.1]; simp
    · rw [List.cons_append, List.dropWhile_cons, hc]; simp [ih.2]

theorem takeWhile_of_all (p : Char → Bool) :
    ∀ (s : List Char), (∀ c ∈ s, p c = true) → s.takeWhile p = s
  | [], _ => rfl
  | c :: cs, h => by
    have hc : p c = true := h c (by simp)
    rw [List.takeWhile_cons, hc, takeWhile_of_all p cs (fun a ha => h a (by simp [ha]))]
    simp

theorem parse_fst : ∀ ls, (parse_mq_operations ls).1 = ls.filterMap matchEnc
  | [] => rfl
  | l :: ls => by
    cases h : matchEnc l <;>
      simp [parse_mq_operations, h, parse_fst ls, List.filterMap_cons]

theorem parse_snd : ∀ ls, (parse_mq_operations ls).2 = ls.filterMap matchDec
  | [] => rfl
  | l :: ls => by
    cases h : matchDec l <;>
      simp [parse_mq_operations, h, parse_snd ls, List.filterMap_cons]

theorem runFrom_clean (enc dec : List TraceLine) :
    ∀ (k i : Nat), (∀ j, j < k → isMis (opVerdict enc dec (i + j)) = false) →
      runFrom enc dec i k = ((List.range' i k).map (opVerdict enc dec), Terminal.Exhausted)
  | 0, i, _ => by simp [runFrom]
  | k + 1, i, h => by
    have h0 : isMis (opVerdict enc dec i) = false := by simpa using h 0 k.succ_pos
    have ih := runFrom_clean enc dec k (i + 1) (fun j hj => by
      have h1 := h (j + 1) (Nat.succ_lt_succ hj)
      have h2 : i + (j + 1) = (i + 1) + j := by omega
      rwa [h2] at h1)
    rw [runFrom]
    simp only [h0]
    rw [ih, List.range'_succ]
    simp

theorem runFrom_break (enc dec : List TraceLine) (e d : List Char × List Char) :
    ∀ (m k i : Nat), m < k →
      (∀ j, j < m → isMis (opVerdict enc dec (i + j)) = false) →
      opVerdict enc dec (i + m) = some (Verdict.mismatched e d) →
      runFrom enc dec i k
        = ((List.range' i m).map (opVerdict enc dec)
            ++ [some (Verdict.mismatched e d)], Terminal.Diverged)
  | 0, k, i, hk, _, hmis => by
    cases k with
    | zero => exact absurd hk (Nat.lt_irrefl 0)
    | succ k =>
      rw [Nat.add_zero] at hmis
      rw [runFrom]
      simp [hmis, isMis]
  | m + 1, k, i, hk, hfirst, hmis => by
    cases k with
    | zero => exact absurd hk (Nat.not_lt_zero _)
    | succ k =>
      have h0 : isMis (opVerdict enc dec i) = false := by
        simpa using hfirst 0 m.succ_pos
      have hsh : i + (m + 1) = (i + 1) + m := by omega
      have ih := runFrom_break enc dec e d m k (i + 1) (Nat.lt_of_succ_lt_succ hk)
        (fun j hj => by
          have h1 := hfirst (j + 1) (Nat.succ_lt_succ hj)
          have h2 : i + (j + 1) = (i + 1) + j := by omega
          rwa [h2] at h1)
        (by rwa [hsh] at hmis)
      rw [runFrom]
      simp only [h0]
      rw [ih, List.range'_succ]
      simp

/-! ## Claim theorems -/

/-- C10: parse applied to an empty sequence of lines returns two empty
sequences. -/
theorem parse_empty_c10 : parse_mq_operations [] = ([], []) := rfl

/-- C3: the comparison defines the per-stream operation count as half the
stream length and, when no mismatch occurs in the window, examines exactly
min(min(50, encoder count), decoder count) operations. -/
theorem window_size_c3 (enc dec : List TraceLine)
    (h : ∀ j, j < maxOps enc dec → isMis (opVerdict enc dec j) = false) :
    (compareOps enc dec).1.length = min (min 50 (enc.length / 2)) (dec.length / 2) := by
  have hr := runFrom_clean enc dec (maxOps enc dec) 0 (fun j hj => by
    simpa using h j (by simpa using hj))
  rw [compareOps, hr]
  simp [maxOps]

/-- C5: when both AFTER snapshots are present and equal at every position in
the window, the comparison examines all maxOps operations and ends in the
Exhausted terminal state; Exhausted and Diverged are the only terminal
states. -/
theorem full_match_c5 (enc dec : List TraceLine)
    (h : ∀ j, j < maxOps enc dec → ∃ s, opVerdict enc dec j = some (Verdict.matched s)) :
    compareOps enc dec
        = ((List.range (maxOps enc dec)).map (opVerdict enc dec), Terminal.Exhausted)
      ∧ ∀ t : Terminal, t = Terminal.Exhausted ∨ t = Terminal.Diverged := by
  constructor
  · have hh : ∀ j, j < maxOps enc dec → isMis (opVerdict enc dec j) = false := by
      intro j hj
      obtain ⟨s, hs⟩ := h j hj
      simp [hs, isMis]
    have hr := runFrom_clean enc dec (maxOps enc dec) 0 (fun j hj => by
      simpa using hh j (by simpa using hj))
    rw [compareOps, hr, List.range_eq_range']
  · intro t
    cases t
    · exact Or.inl rfl
    · exact Or.inr rfl

/-- C2: if operation i is the first in the window whose snapshots are both
present and unequal, the comparison reports the matches before i, then the
mismatch notice carrying both snapshots, stops in the Diverged state, and
examines exactly i+1 operations. -/
theorem first_mismatch_c2 (enc dec : List TraceLine) (i : Nat) (e d : List Char × List Char)
    (hi : i < maxOps enc dec)
    (hfirst : ∀ j, j < i → isMis (opVerdict enc dec j) = false)
    (hmis : opVerdict enc dec i = some (Verdict.mismatched e d)) :
    compareOps enc dec
        = ((List.range i).map (opVerdict enc dec) ++ [some (Verdict.mismatched e d)],
           Terminal.Diverged)
      ∧ (compareOps enc dec).1.length = i + 1 := by
  have hb := runFrom_break enc dec e d i (maxOps enc dec) 0 hi
    (fun j hj => by simpa using hfirst j hj) (by simpa using hmis)
  refine ⟨?_, ?_⟩
  · rw [compareOps, hb, List.range_eq_range']
  · rw [compareOps, hb]
    simp

/-- C4: when at least one of the two AFTER payloads yields no snapshot, the
operation gets no match or mismatch verdict and the loop proceeds to the next
operation, evaluating the remaining window there. -/
theorem skip_missing_c4 (enc dec : List TraceLine) (i k : Nat)
    (h : searchSnap (enc.getD (i * 2 + 1) default).details = none ∨
         searchSnap (dec.getD (i * 2 + 1) default).details = none) :
    opVerdict enc dec i = none ∧
    runFrom enc dec i (k + 1)
      = (none :: (runFrom enc dec (i + 1) k).1, (runFrom enc dec (i + 1) k).2) := by
  have hv : opVerdict enc dec i = none := by
    rcases h with h | h
    · rw [opVerdict, h]
    · rw [opVerdict, h]
      cases searchSnap (enc.getD (i * 2 + 1) default).details <;> rfl
  refine ⟨hv, ?_⟩
  rw [runFrom]
  simp [hv, isMis]

/-- C1 (amended): when both AFTER payloads yield snapshots e and d, the
operation reports a match exactly when the matched digit strings of both
fields agree as strings, and the mismatch notice exactly when they differ. -/
theorem snapshot_eq_c1 (enc dec : List TraceLine) (i : Nat) (e d : List Char × List Char)
    (he : searchSnap (enc.getD (i * 2 + 1) default).details = some e)
    (hd : searchSnap (dec.getD (i * 2 + 1) default).details = some d) :
    (opVerdict enc dec i = some (Verdict.matched e) ↔ e = d) ∧
    (opVerdict enc dec i = some (Verdict.mismatched e d) ↔ e ≠ d) := by
  rw [opVerdict, he, hd]
  by_cases hed : e = d
  · subst hed
    simp
  · simp [hed]

/-- The phase and payload of a trace line: everything the comparison can
read; the opNum field is left out. -/
def shape (t : TraceLine) : Phase × List Char := (t.phase, t.details)

theorem getD_map_eq {α β : Type} (f : α → β) (dflt : α) :
    ∀ (l1 l2 : List α), l1.map f = l2.map f →
      ∀ k, f (l1.getD k dflt) = f (l2.getD k dflt)
  | [], [], _, _ => rfl
  | [], _ :: _, h, _ => by simp at h
  | _ :: _, [], h, _ => by simp at h
  | _ :: l1, _ :: l2, h, k => by
    simp only [List.map_cons, List.cons.injEq] at h
    cases k with
    | zero => simpa using h.1
    | succ k => simpa using getD_map_eq f dflt l1 l2 h.2 k

/-- C8: pairing is purely positional and never reads the opNum field: streams
identical except for their opNum fields give the same verdicts and the same
terminal state. -/
theorem positional_c8 (e1 d1 e2 d2 : List TraceLine)
    (he : e1.map shape = e2.map shape) (hd : d1.map shape = d2.map shape) :
    compareOps e1 d1 = compareOps e2 d2 := by
  have hlenE : e1.length = e2.length := by
    simpa using congrArg List.length he
  have hlenD : d1.length = d2.length := by
    simpa using congrArg List.length hd
  have hop : ∀ i, opVerdict e1 d1 i = opVerdict e2 d2 i := by
    intro i
    have h1 := congrArg Prod.snd (getD_map_eq shape default e1 e2 he (i * 2 + 1))
    have h2 := congrArg Prod.snd (getD_map_eq shape default d1 d2 hd (i * 2 + 1))
    simp only [shape] at h1 h2
    rw [opVerdict, opVerdict, h1, h2]
  have hrun : ∀ k i, runFrom e1 d1 i k = runFrom e2 d2 i k := by
    intro k
    induction k with
    | zero => intro i; rfl
    | succ k ih =>
      intro i
      rw [runFrom, runFrom, hop i, ih (i + 1)]
  rw [compareOps, compareOps, maxOps, maxOps, hlenE, hlenD, hrun]

/-! ## Concrete streams for witnesses and counterexamples -/

/-- Payload text newState=5 newMPS=0. -/
def pay50 : List Char :=
  ['n', 'e', 'w', 'S', 't', 'a', 't', 'e', '=', '5', ' ',
   'n', 'e', 'w', 'M', 'P', 'S', '=', '0']

/-- Payload text newState=5 newMPS=1. -/
def pay51 : List Char :=
  ['n', 'e', 'w', 'S', 't', 'a', 't', 'e', '=', '5', ' ',
   'n', 'e', 'w', 'M', 'P', 'S', '=', '1']

/-- Payload text newState=05 newMPS=0: same integer values as pay50 written
with a leading zero. -/
def pay05 : List Char :=
  ['n', 'e', 'w', 'S', 't', 'a', 't', 'e', '=', '0', '5', ' ',
   'n', 'e', 'w', 'M', 'P', 'S', '=', '0']

/-- A generic BEFORE line. -/
def blB : TraceLine := ⟨0, Phase.BEFORE, ['b']⟩

def encC1 : List TraceLine := [blB, ⟨1, Phase.AFTER, pay50⟩]

def decC1 : List TraceLine := [blB, ⟨1, Phase.AFTER, pay05⟩]

def encC2 : List TraceLine :=
  [blB, ⟨1, Phase.AFTER, pay50⟩, blB, ⟨2, Phase.AFTER, pay50⟩,
   blB, ⟨3, Phase.AFTER, pay50⟩, blB, ⟨4, Phase.AFTER, pay50⟩]

def decC2 : List TraceLine :=
  [blB, ⟨1, Phase.AFTER, pay50⟩, blB, ⟨2, Phase.AFTER, pay50⟩,
   blB, ⟨3, Phase.AFTER, pay51⟩, blB, ⟨4, Phase.AFTER, pay51⟩]

/-- Two hundred lines, one hundred operations, all with snapshot (5, 0). -/
def bigStream : List TraceLine := List.replicate 200 ⟨1, Phase.AFTER, pay50⟩

/-- Twenty lines, ten operations, all with snapshot (5, 0). -/
def tenStream : List TraceLine := List.replicate 20 ⟨1, Phase.AFTER, pay50⟩

def encC4 : List TraceLine := [blB, ⟨1, Phase.AFTER, ['x']⟩, blB, ⟨2, Phase.AFTER, pay50⟩]

def decC4 : List TraceLine := [blB, ⟨1, Phase.AFTER, pay50⟩, blB, ⟨2, Phase.AFTER, pay50⟩]

def encC8 : List TraceLine := [blB, ⟨1, Phase.AFTER, pay50⟩]

def encC8x : List TraceLine := [⟨7, Phase.BEFORE, ['b']⟩, ⟨9, Phase.AFTER, pay50⟩]

/-! ## Witnesses and counterexamples -/

/-- C1 counterexample: both snapshots are present and the integer values of
both fields agree (coder state 5, MPS bit 0 on each side), yet the comparison
reports a mismatch and diverges, because the matched digit strings 5 and 05
are compared as strings. -/
theorem snapshot_eq_c1_cex :
    searchSnap (encC1.getD 1 default).details = some (['5'], ['0']) ∧
    searchSnap (decC1.getD 1 default).details = some (['0', '5'], ['0']) ∧
    digsToNat ['5'] = digsToNat ['0', '5'] ∧
    digsToNat ['0'] = digsToNat ['0'] ∧
    compareOps encC1 decC1
      = ([some (Verdict.mismatched (['5'], ['0']) (['0', '5'], ['0']))],
         Terminal.Diverged) := by
  decide

/-- Witness for the amended C1 at a concrete operation with equal snapshots. -/
theorem snapshot_eq_c1_witness :
    opVerdict encC1 encC1 0 = some (Verdict.matched (['5'], ['0'])) :=
  ((snapshot_eq_c1 encC1 encC1 0 (['5'], ['0']) (['5'], ['0'])
    (by decide) (by decide)).1).mpr rfl

/-- Witness for C2 on the spec's divergence scenario: agreement on the first
two operations, divergence at the third, a fourth present but unexamined. -/
theorem first_mismatch_c2_witness :
    compareOps encC2 decC2
      = ((List.range 2).map (opVerdict encC2 decC2)
          ++ [some (Verdict.mismatched (['5'], ['0']) (['5'], ['1']))],
         Terminal.Diverged)
      ∧ (compareOps encC2 decC2).1.length = 2 + 1 :=
  first_mismatch_c2 encC2 decC2 2 (['5'], ['0']) (['5'], ['1'])
    (by decide) (by decide) (by decide)

set_option maxRecDepth 100000 in
/-- Witness for C3 on two streams of one hundred operations each: exactly
fifty operations are examined. -/
theorem window_size_c3_witness : (compareOps bigStream bigStream).1.length = 50 := by
  have h := window_size_c3 bigStream bigStream (by decide)
  rw [h]
  decide

/-- Witness for C4: the first operation lacks an encoder snapshot, gets no
verdict, and the loop continues with the rest of the window. -/
theorem skip_missing_c4_witness :
    opVerdict encC4 decC4 0 = none ∧
    runFrom encC4 decC4 0 (1 + 1)
      = (none :: (runFrom encC4 decC4 (0 + 1) 1).1, (runFrom encC4 decC4 (0 + 1) 1).2) :=
  skip_missing_c4 encC4 decC4 0 1 (Or.inl (by decide))

/-- Witness for C5 on two identical ten-operation streams. -/
theorem full_match_c5_witness :
    compareOps tenStream tenStream
      = ((List.range (maxOps tenStream tenStream)).map (opVerdict tenStream tenStream),
         Terminal.Exhausted) :=
  (full_match_c5 tenStream tenStream (fun j hj =>
    ⟨(['5'], ['0']), by
      have hc : ∀ jj, jj < 10 →
          opVerdict tenStream tenStream jj = some (Verdict.matched (['5'], ['0'])) := by
        decide
      exact hc j hj⟩)).1

/-- Witness for C8 on two stream pairs that differ only in opNum fields. -/
theorem positional_c8_witness :
    compareOps encC8 encC8 = compareOps encC8x encC8x :=
  positional_c8 encC8 encC8 encC8x encC8x (by decide) (by decide)

/-! ## Parser correctness lemmas -/

theorem afterTag_app (digs t : List Char) (h1 : digs ≠ [])
    (h2 : ∀ c ∈ digs, c.isDigit = true) :
    afterTag (digs ++ ' ' :: t) = some (digsToNat digs, t) := by
  have htw := takeWhile_run Char.isDigit digs h2 ' ' t (by decide)
  rw [afterTag, htw.1, htw.2, if_neg h1]
  simp

theorem eatPhase_tok (ph : Phase) (s : List Char) :
    eatPhase (phTok ph ++ s) = some (ph, s) := by
  cases ph with
  | BEFORE => rw [eatPhase, eatLit_self_app]
  | AFTER =>
    have hB : eatLit (phTok Phase.BEFORE) (phTok Phase.AFTER ++ s) = none := rfl
    rw [eatPhase, hB, eatLit_self_app]

theorem afterNum_app (ph : Phase) (rest : List Char) :
    afterNum (phTok ph ++ ']' :: rest) = some (ph, rest) := by
  rw [afterNum, eatPhase_tok]
  simp

theorem payOf_app (rest : List Char) (h1 : rest ≠ []) (h2 : ∀ c ∈ rest, c ≠ '\n') :
    payOf rest = some (pyStrip rest) := by
  have ht : rest.takeWhile (fun c => !(c = '\n')) = rest :=
    takeWhile_of_all _ rest (fun c hc => by simp [h2 c hc])
  rw [payOf, ht, if_neg h1]

theorem parse_single (l : List Char) :
    parse_mq_operations [l] = ((matchEnc l).toList, (matchDec l).toList) := by
  simp [parse_mq_operations]

theorem matchTag_app (tag digs rest : List Char) (ph : Phase)
    (hd1 : digs ≠ []) (hd2 : ∀ c ∈ digs, c.isDigit = true)
    (hr1 : rest ≠ []) (hr2 : ∀ c ∈ rest, c ≠ '\n') :
    matchTag tag (tag ++ digs ++ ' ' :: (phTok ph ++ ']' :: rest))
      = some ⟨digsToNat digs, ph, pyStrip rest⟩ := by
  simp [matchTag, eatLit_self_app,
        afterTag_app digs (phTok ph ++ ']' :: rest) hd1 hd2,
        afterNum_app, payOf_app rest hr1 hr2]

/-! ## Remaining claim theorems -/

/-- C6: a line of the encoder tag grammar parses to exactly one encoder
record whose index is the tag's integer, whose phase is the BEFORE/AFTER
token, and whose payload is the trimmed remainder of the line, contributing
nothing to the decoder sequence; symmetrically for the decoder grammar. -/
theorem parse_line_c6 (digs rest : List Char) (ph : Phase)
    (hd1 : digs ≠ []) (hd2 : ∀ c ∈ digs, c.isDigit = true)
    (hr1 : rest ≠ []) (hr2 : ∀ c ∈ rest, c ≠ '\n') :
    parse_mq_operations [encTagStr ++ digs ++ ' ' :: (phTok ph ++ ']' :: rest)]
      = ([⟨digsToNat digs, ph, pyStrip rest⟩], [])
    ∧ parse_mq_operations [decTagStr ++ digs ++ ' ' :: (phTok ph ++ ']' :: rest)]
      = ([], [⟨digsToNat digs, ph, pyStrip rest⟩]) := by
  constructor
  · have hE : matchEnc (encTagStr ++ digs ++ ' ' :: (phTok ph ++ ']' :: rest))
        = some ⟨digsToNat digs, ph, pyStrip rest⟩ :=
      matchTag_app encTagStr digs rest ph hd1 hd2 hr1 hr2
    have hD : matchDec (encTagStr ++ digs ++ ' ' :: (phTok ph ++ ']' :: rest)) = none := by
      rw [matchDec, matchTag,
        show eatLit decTagStr (encTagStr ++ digs ++ ' ' :: (phTok ph ++ ']' :: rest)) = none
          from rfl]
      rfl
    rw [parse_single, hE, hD]
    rfl
  · have hDm : matchDec (decTagStr ++ digs ++ ' ' :: (phTok ph ++ ']' :: rest))
        = some ⟨digsToNat digs, ph, pyStrip rest⟩ :=
      matchTag_app decTagStr digs rest ph hd1 hd2 hr1 hr2
    have hEm : matchEnc (decTagStr ++ digs ++ ' ' :: (phTok ph ++ ']' :: rest)) = none := by
      rw [matchEnc, matchTag,
        show eatLit encTagStr (decTagStr ++ digs ++ ' ' :: (phTok ph ++ ']' :: rest)) = none
          from rfl]
      rfl
    rw [parse_single, hEm, hDm]
    rfl

/-- Witness for C6 on the line of the spec, tag number 7, phase BEFORE,
remainder a space then foo. -/
theorem parse_line_c6_witness :
    parse_mq_operations
      [['[', 'M', 'Q', 'E', ' ', '#', '7', ' ', 'B', 'E', 'F', 'O', 'R', 'E', ']',
        ' ', 'f', 'o', 'o']]
      = ([⟨7, Phase.BEFORE, ['f', 'o', 'o']⟩], []) :=
  (parse_line_c6 ['7'] [' ', 'f', 'o', 'o'] Phase.BEFORE
    (by decide) (by decide) (by decide) (by decide)).1

/-- C7: parsing preserves input order within each stream: when lines a and b
both match the same grammar and a precedes b, the record of a precedes the
record of b in that grammar's output sequence, whatever lies around them. -/
theorem parse_order_c7 (pre mid post : List (List Char)) (a b : List Char)
    (ra rb : TraceLine) :
    (matchEnc a = some ra → matchEnc b = some rb →
      (parse_mq_operations (pre ++ a :: (mid ++ b :: post))).1
        = (parse_mq_operations pre).1
            ++ ra :: ((parse_mq_operations mid).1 ++ rb :: (parse_mq_operations post).1))
    ∧ (matchDec a = some ra → matchDec b = some rb →
      (parse_mq_operations (pre ++ a :: (mid ++ b :: post))).2
        = (parse_mq_operations pre).2
            ++ ra :: ((parse_mq_operations mid).2 ++ rb :: (parse_mq_operations post).2)) := by
  constructor
  · intro ha hb
    simp [parse_fst, List.filterMap_append, List.filterMap_cons, ha, hb]
  · intro ha hb
    simp [parse_snd, List.filterMap_append, List.filterMap_cons, ha, hb]

/-- Witness for C7 on two encoder lines with indices 1 and 2. -/
theorem parse_order_c7_witness :
    (parse_mq_operations
      [['[', 'M', 'Q', 'E', ' ', '#', '1', ' ', 'A', 'F', 'T', 'E', 'R', ']', 'x'],
       ['[', 'M', 'Q', 'E', ' ', '#', '2', ' ', 'A', 'F', 'T', 'E', 'R', ']', 'y']]).1
      = [⟨1, Phase.AFTER, ['x']⟩, ⟨2, Phase.AFTER, ['y']⟩] := by
  have h := (parse_order_c7 [] [] []
      ['[', 'M', 'Q', 'E', ' ', '#', '1', ' ', 'A', 'F', 'T', 'E', 'R', ']', 'x']
      ['[', 'M', 'Q', 'E', ' ', '#', '2', ' ', 'A', 'F', 'T', 'E', 'R', ']', 'y']
      ⟨1, Phase.AFTER, ['x']⟩ ⟨2, Phase.AFTER, ['y']⟩).1 (by decide) (by decide)
  simpa using h

/-- C9 counterexample: the line of the tag followed by one space matches the
encoder grammar, because the rest-of-line is the nonempty one-space string,
and parses to a record whose trimmed payload is empty, so an empty payload
can occur in a parsed stream. -/
theorem empty_payload_c9_cex :
    parse_mq_operations
      [['[', 'M', 'Q', 'E', ' ', '#', '3', ' ', 'A', 'F', 'T', 'E', 'R', ']', ' ']]
      = ([⟨3, Phase.AFTER, []⟩], []) := by
  decide

/-- C9 (amended): a line consisting of a tag of either grammar with nothing
after the closing bracket matches neither grammar and produces no record, a
record being produced only when the rest-of-line after the tag is nonempty;
the trimmed payload of a record can nevertheless be empty. -/
theorem bare_tag_c9 (digs : List Char) (ph : Phase)
    (hd1 : digs ≠ []) (hd2 : ∀ c ∈ digs, c.isDigit = true) :
    (matchEnc (encTagStr ++ digs ++ ' ' :: (phTok ph ++ ']' :: [])) = none ∧
     matchDec (encTagStr ++ digs ++ ' ' :: (phTok ph ++ ']' :: [])) = none ∧
     parse_mq_operations [encTagStr ++ digs ++ ' ' :: (phTok ph ++ ']' :: [])]
       = ([], []))
    ∧ (matchEnc (decTagStr ++ digs ++ ' ' :: (phTok ph ++ ']' :: [])) = none ∧
       matchDec (decTagStr ++ digs ++ ' ' :: (phTok ph ++ ']' :: [])) = none ∧
       parse_mq_operations [decTagStr ++ digs ++ ' ' :: (phTok ph ++ ']' :: [])]
         = ([], [])) := by
  have hpay : payOf ([] : List Char) = none := rfl
  have hE : matchEnc (encTagStr ++ digs ++ ' ' :: (phTok ph ++ ']' :: [])) = none := by
    simp [matchEnc, matchTag, eatLit_self_app,
          afterTag_app digs (phTok ph ++ ']' :: []) hd1 hd2, afterNum_app, hpay]
  have hD : matchDec (encTagStr ++ digs ++ ' ' :: (phTok ph ++ ']' :: [])) = none := by
    rw [matchDec, matchTag,
      show eatLit decTagStr (encTagStr ++ digs ++ ' ' :: (phTok ph ++ ']' :: [])) = none
        from rfl]
    rfl
  have hDm : matchDec (decTagStr ++ digs ++ ' ' :: (phTok ph ++ ']' :: [])) = none := by
    simp [matchDec, matchTag, eatLit_self_app,
          afterTag_app digs (phTok ph ++ ']' :: []) hd1 hd2, afterNum_app, hpay]
  have hEm : matchEnc (decTagStr ++ digs ++ ' ' :: (phTok ph ++ ']' :: [])) = none := by
    rw [matchEnc, matchTag,
      show eatLit encTagStr (decTagStr ++ digs ++ ' ' :: (phTok ph ++ ']' :: [])) = none
        from rfl]
    rfl
  exact ⟨⟨hE, hD, by rw [parse_single, hE, hD]; rfl⟩,
         ⟨hEm, hDm, by rw [parse_single, hEm, hDm]; rfl⟩⟩

/-- Witness for the amended C9 on the bare encoder-tag and decoder-tag lines
with tag number 3 and phase AFTER, nothing after the bracket. -/
theorem bare_tag_c9_witness :
    parse_mq_operations [['[', 'M', 'Q', 'E', ' ', '#', '3', ' ', 'A', 'F', 'T', 'E', 'R', ']']]
      = ([], [])
    ∧ parse_mq_operations [['[', 'M', 'Q', 'C', ' ', '#', '3', ' ', 'A', 'F', 'T', 'E', 'R', ']']]
      = ([], []) :=
  ⟨(bare_tag_c9 ['3'] Phase.AFTER (by decide) (by decide)).1.2.2,
   (bare_tag_c9 ['3'] Phase.AFTER (by decide) (by decide)).2.2.2⟩

-- Sanity checks of the embedding on concrete inputs.
example : parse_mq_operations
    [['[', 'M', 'Q', 'E', ' ', '#', '7', ' ', 'B', 'E', 'F', 'O', 'R', 'E', ']', ' ', 'f', 'o', 'o']]
    = ([⟨7, Phase.BEFORE, ['f', 'o', 'o']⟩], []) := by decide

example : matchEnc ['[', 'M', 'Q', 'E', ' ', '#', '3', ' ', 'A', 'F', 'T', 'E', 'R', ']'] = none := by
  decide

example : searchSnap
    ['x', ' ', 'n', 'e', 'w', 'S', 't', 'a', 't', 'e', '=', '5', ' ',
     'n', 'e', 'w', 'M', 'P', 'S', '=', '0']
    = some (['5'], ['0']) := by decide

example :
    compareOps
      [⟨1, Phase.BEFORE, ['b']⟩,
       ⟨1, Phase.AFTER, ['n', 'e', 'w', 'S', 't', 'a', 't', 'e', '=', '5', ' ',
                         'n', 'e', 'w', 'M', 'P', 'S', '=', '0']⟩]
      [⟨1, Phase.BEFORE, ['b']⟩,
       ⟨1, Phase.AFTER, ['n', 'e', 'w', 'S', 't', 'a', 't', 'e', '=', '5', ' ',
                         'n', 'e', 'w', 'M', 'P', 'S', '=', '1']⟩]
    = ([some (Verdict.mismatched (['5'], ['0']) (['5'], ['1']))], Terminal.Diverged) := by
  decide

end CompareMqOps
